import Mathlib

/-!
Shallow embedding of the petrify planar computational-geometry core
(`petrify/solver.py`, `petrify/decompose.py`, `petrify/engines/pyoffset.py`,
`petrify/plane/__init__.py`, `petrify/plane/point.py`, `petrify/plane/line.py`)
over exact rational arithmetic, together with theorems settling the frozen
claims about that code.

Conventions used throughout:
* Python floats are modelled as `ℚ`; float operations that would be inexact
  on irrational values (square roots inside `normalized`) are modelled by a
  partial exact square root, and a run that would need an irrational value
  is flagged with the distinguished outcome `PyErr.approx` (never hit in the
  concrete evaluations below).
* Python exceptions are modelled with `Except PyErr`; `ZeroDivisionError`
  is `PyErr.zeroDiv`, `ValueError` is `PyErr.valueErr`, and so on.
* Python `dict` / `set` values are modelled as association lists / deduplicated
  lists in insertion order.
* `while` loops whose termination is not structurally evident are given an
  explicit fuel parameter; running out of fuel yields `PyErr.fuel`.
-/

-- The Batteries rational arithmetic is `@[irreducible]`; the closed
-- evaluation theorems below need it to reduce definitionally.
unseal Rat.add Rat.mul Rat.sub Rat.inv Rat.ofScientific

instance {ε α : Type} [DecidableEq ε] [DecidableEq α] :
    DecidableEq (Except ε α) := fun a b =>
  match a, b with
  | .error e, .error f =>
    if h : e = f then .isTrue (by rw [h]) else .isFalse (by simp [h])
  | .error _, .ok _ => .isFalse (by simp)
  | .ok _, .error _ => .isFalse (by simp)
  | .ok x, .ok y =>
    if h : x = y then .isTrue (by rw [h]) else .isFalse (by simp [h])

namespace Petrify

/-- Python exception outcomes (plus the two embedding-only markers
`approx` for a value not representable in `ℚ` and `fuel` for fuel
exhaustion of a modelled `while` loop). -/
inductive PyErr where
  | zeroDiv
  | valueErr
  | typeErr
  | keyErr
  | indexErr
  | assertErr
  | attrErr
  | approx
  | fuel
deriving DecidableEq, Repr

abbrev Py (α : Type) := Except PyErr α

/-- A two-dimensional coordinate pair, standing for both `Point2` and
`Vector2` of `petrify/plane/point.py` (their arithmetic is identical and
only the carried class differs in Python). -/
structure V2 where
  x : ℚ
  y : ℚ
deriving DecidableEq, Repr

instance : Add V2 := ⟨fun a b => ⟨a.x + b.x, a.y + b.y⟩⟩
instance : Sub V2 := ⟨fun a b => ⟨a.x - b.x, a.y - b.y⟩⟩
instance : Neg V2 := ⟨fun a => ⟨-a.x, -a.y⟩⟩

/-- `Vector2.__mul__` with a scalar. -/
def V2.smul (a : V2) (c : ℚ) : V2 := ⟨a.x * c, a.y * c⟩

/-- `Vector2.dot`. -/
def V2.dot (a b : V2) : ℚ := a.x * b.x + a.y * b.y

/-- `Vector2.cross` (the planar perpendicular `(y, -x)`). -/
def V2.cross (v : V2) : V2 := ⟨v.y, -v.x⟩

/-- `Vector2.magnitude_squared`. -/
def V2.magSq (v : V2) : ℚ := v.x ^ 2 + v.y ^ 2

@[simp] theorem V2.add_def (a b : V2) : a + b = ⟨a.x + b.x, a.y + b.y⟩ := rfl
@[simp] theorem V2.sub_def (a b : V2) : a - b = ⟨a.x - b.x, a.y - b.y⟩ := rfl
@[simp] theorem V2.neg_def (a : V2) : -a = ⟨-a.x, -a.y⟩ := rfl

/-- Python 3 `round` on a rational: nearest integer, ties to even. -/
def pyround (q : ℚ) : ℤ :=
  let f := ⌊q⌋
  let frac := q - f
  if frac < 1/2 then f
  else if frac > 1/2 then f + 1
  else if 2 ∣ f then f else f + 1

/-- Digit-by-digit integer square root (structurally recursive so that the
kernel can evaluate it; `Nat.sqrt` is defined by well-founded recursion). -/
def isqrtAux : Nat → Nat → Nat
  | 0, _ => 0
  | _ + 1, 0 => 0
  | fuel + 1, n =>
    let r := 2 * isqrtAux fuel (n / 4)
    if (r + 1) * (r + 1) ≤ n then r + 1 else r

/-- `⌊√n⌋` for naturals. -/
def isqrt (n : Nat) : Nat := isqrtAux n n

/-- Exact square root on `ℚ`: `some r` with `r * r = q` when it exists
(for a reduced fraction, exactly when numerator and denominator are both
perfect squares). -/
def sqrtExact (q : ℚ) : Option ℚ :=
  if q < 0 then none
  else
    let n := q.num.toNat
    let d := q.den
    let sn := isqrt n
    let sd := isqrt d
    if sn * sn = n ∧ sd * sd = d then some ((sn : ℚ) / (sd : ℚ)) else none

/-- `Vector2.normalized`: divide by the magnitude when it is nonzero, return
the vector unchanged when the magnitude is zero (the Python code's
`if d:` branch).  Yields `PyErr.approx` when the magnitude is irrational. -/
def V2.normalized (v : V2) : Py V2 :=
  match sqrtExact v.magSq with
  | none => .error .approx
  | some d => if d = 0 then .ok v else .ok ⟨v.x / d, v.y / d⟩

/-- `Vector2.snap`: `round(v / grid) * grid` coordinatewise. -/
def V2.snap (v : V2) (grid : ℚ) : V2 :=
  ⟨(pyround (v.x / grid) : ℚ) * grid, (pyround (v.y / grid) : ℚ) * grid⟩

/-! ### Small list helpers modelling Python built-ins -/

/-- Python `min(xs, key=f)` for a nonempty list: the first element with the
minimal key. -/
def minByQ (f : α → ℚ) : List α → Option α
  | [] => none
  | x :: xs => some (xs.foldl (fun b a => if f a < f b then a else b) x)

/-- Insert into a list sorted by a rational key, after all strictly smaller
keys and before all equal-or-larger keys (used right-to-left this yields a
stable sort, matching Python's `sorted`). -/
def insertK (key : α → ℚ) (x : α) : List α → List α
  | [] => [x]
  | y :: ys => if key y < key x then y :: insertK key x ys else x :: y :: ys

/-- Stable sort by a rational key (Python `sorted(xs, key=...)`), written as
a structurally recursive insertion sort so the kernel can evaluate it. -/
def sortK (key : α → ℚ) : List α → List α
  | [] => []
  | x :: xs => insertK key x (sortK key xs)

/-- `set.remove`: drop the first occurrence, `none` when absent. -/
def removeFirst [DecidableEq α] : List α → α → Option (List α)
  | [], _ => none
  | x :: xs, a =>
    if x = a then some xs
    else (removeFirst xs a).map (x :: ·)

/-! ### `petrify/solver.py` -/

/-- Read entry `(i, j)` of a row-list matrix (all uses are in bounds). -/
def getM (A : List (List ℚ)) (i j : Nat) : ℚ := ((A.getD i []).getD j 0)

/-- Write entry `(i, j)` of a row-list matrix. -/
def setM (A : List (List ℚ)) (i j : Nat) (v : ℚ) : List (List ℚ) :=
  A.set i ((A.getD i []).set j v)

/--
`solve_matrix` from `petrify/solver.py`, state-passing: Gauss-Jordan
elimination with partial pivoting on an n×(n+1) augmented matrix.  The Python
function mutates its argument in place; this model returns both the solution
vector and the final state of the matrix so that the mutation is observable.
A division by a zero pivot is `PyErr.zeroDiv` (Python `ZeroDivisionError`).
-/
def solveMatrixSt (A : List (List ℚ)) : Py (List ℚ × List (List ℚ)) := do
  let n := A.length
  let A ← (List.range n).foldlM (fun A i => do
    let mr := ((List.range' (i+1) (n - (i+1))).foldl
      (fun (p : ℚ × Nat) k =>
        if |getM A k i| > p.1 then (|getM A k i|, k) else p)
      (|getM A i i|, i)).2
    let A := (List.range' i (n + 1 - i)).foldl
      (fun A k =>
        let tmp := getM A mr k
        let A := setM A mr k (getM A i k)
        setM A i k tmp) A
    (List.range' (i+1) (n - (i+1))).foldlM (fun A k => do
      if getM A i i = 0 then throw .zeroDiv
      let c := -(getM A k i) / getM A i i
      pure ((List.range' i (n + 1 - i)).foldl
        (fun A j =>
          if i = j then setM A k j 0
          else setM A k j (getM A k j + c * getM A i j)) A)) A) A
  let (x, A) ← (List.range n).foldlM
    (fun (p : List ℚ × List (List ℚ)) ir => do
      let (x, A) := p
      let i := n - 1 - ir
      if getM A i i = 0 then throw .zeroDiv
      let xi := getM A i n / getM A i i
      let x := x.set i xi
      let A := (List.range i).foldl
        (fun A k => setM A k n (getM A k n - getM A k i * xi)) A
      pure (x, A)) (List.replicate n (0 : ℚ), A)
  pure (x, A)

/-- `solve_matrix` as its callers in `pyoffset.py` use it: just the returned
solution vector (those callers always pass a freshly built matrix). -/
def solve_matrix (A : List (List ℚ)) : Py (List ℚ) :=
  (solveMatrixSt A).map (·.1)

/-! ### Lines, rays, segments (`petrify/plane/line.py`, `petrify/plane/util.py`) -/

/-- `LineSegment2`: stores an origin `p` and an offset vector `v`
(`p2` is the derived `p + v`). -/
structure LS where
  p : V2
  v : V2
deriving DecidableEq, Repr

def LS.p1 (l : LS) : V2 := l.p
def LS.p2 (l : LS) : V2 := l.p + l.v

/-- Build a `LineSegment2` from two points (`v := p2 - p1`). -/
def LS.mk2 (a b : V2) : LS := ⟨a, b - a⟩

/-- `Ray2`: origin plus direction. -/
structure Ray where
  p : V2
  v : V2
deriving DecidableEq, Repr

/-- The `_u_in` predicate of `LineSegment2`. -/
def uSeg (u : ℚ) : Bool := 0 ≤ u ∧ u ≤ 1

/-- The `_u_in` predicate of `Ray2`. -/
def uRay (u : ℚ) : Bool := 0 ≤ u

/-- The `_u_in` predicate of `Line2`. -/
def uLine (_ : ℚ) : Bool := true

/-- `_intersect_line2_line2(A, B)` from `petrify/plane/util.py`,
parametrised by the `_u_in` predicates of the two operands; the returned
point is computed from operand `A`. -/
def intersectCore (aUin bUin : ℚ → Bool) (ap av bp bv : V2) : Option V2 :=
  let d := bv.y * av.x - bv.x * av.y
  if d = 0 then none
  else
    let dy := ap.y - bp.y
    let dx := ap.x - bp.x
    let ua := (bv.x * dy - bv.y * dx) / d
    if ¬ aUin ua then none
    else
      let ub := (av.x * dy - av.y * dx) / d
      if ¬ bUin ub then none
      else some ⟨ap.x + ua * av.x, ap.y + ua * av.y⟩

/-- The projection point of `_connect_point2_line2(P, L)` (with the
`u` clamp); its caller guards `L.v.magnitude_squared() > 0` so the assert
cannot fire there. -/
def connP2L2 (P Lp Lv : V2) : V2 :=
  let d := Lv.magSq
  let u := ((P.x - Lp.x) * Lv.x + (P.y - Lp.y) * Lv.y) / d
  let u := if ¬ (0 ≤ u ∧ u ≤ 1) then max (min u 1) 0 else u
  ⟨Lp.x + u * Lv.x, Lp.y + u * Lv.y⟩

/-! ### `ExactSegment` (`petrify/decompose.py`) -/

/-- `ExactSegment.__init__`: stores both endpoints verbatim, plus the
derived `p` and `v` attributes the class also sets. -/
structure ES where
  p1 : V2
  p2 : V2
  p : V2
  v : V2
deriving DecidableEq, Repr

/-- `ExactSegment(p1, p2)`: `self.p1 = p1; self.p2 = p2; self.p = self.p1;
self.v = self.p2 - self.p1`. -/
def ES.make (a b : V2) : ES := ⟨a, b, a, b - a⟩

/-- `ExactSegment.__eq__`: `(self.p1, self.p2) == (other.p1, other.p2)` —
equality looks only at the stored endpoint pair. -/
def ES.beq (a b : ES) : Bool := (a.p1, a.p2) = (b.p1, b.p2)

/-- `ExactSegment.flipped`. -/
def ES.flipped (l : ES) : ES := ES.make l.p2 l.p1

/-! ### Polygons (`petrify/plane/__init__.py` plus the `AbstractPolygon`
base class, which is missing from the source snapshot) -/

structure Polygon where
  points : List V2
deriving DecidableEq, Repr

/-- Rotate a list left by `m` (helper for Python slice-splicing
`[*l[n:], *l[:n]]`). -/
def rotateL (l : List α) (m : Nat) : List α := l.drop m ++ l.take m

/-- Normalise a Python slice index `n ∈ [-len, len]` to a rotation amount. -/
def pyIndex (len : Nat) (n : Int) : Nat :=
  if len = 0 then 0 else (((n % len) + len) % len).toNat

/-- Modelled from the spec: `AbstractPolygon.segments` (`petrify/geometry.py`
is missing this base class in the snapshot).  Per §6 of the spec
("Polygon `.segments()`") and every usage site: the cyclically consecutive
point pairs as `LineSegment2`s. -/
def Polygon.segments (poly : Polygon) : List LS :=
  match poly.points with
  | [] => []
  | q :: qs => (List.zip (q :: qs) (qs ++ [q])).map fun (a, b) => LS.mk2 a b

/-- Modelled from the spec: `AbstractPolygon.simplify` (missing base class).
Per §3 ("invariant after `simplify`: no two cyclically-adjacent points are
coincident within a tolerance") and the doctests of `Polygon2.simplify`:
drop every point whose cyclic predecessor is within `tolerance`, and yield
`none` when fewer than three points remain. -/
def Polygon.simplify (poly : Polygon) (tolerance : ℚ := 1/10000) : Option Polygon :=
  let ps := poly.points
  let n := ps.length
  let kept := (List.range n).filterMap fun i =>
    let cur := ps.getD i ⟨0, 0⟩
    let prev := ps.getD ((i + n - 1) % n) ⟨0, 0⟩
    if (cur - prev).magSq ≤ tolerance ^ 2 then none else some cur
  if kept.length < 3 then none else some ⟨kept⟩

/-- Modelled from the spec: `AbstractPolygon.index_of` (missing base class);
the doctest of `Polygon2.index_of` pins it to the first index of the given
point (`list.index` semantics, `ValueError` when absent). -/
def Polygon.index_of (poly : Polygon) (pt : V2) : Py Nat :=
  match poly.points.findIdx? (· = pt) with
  | some i => .ok i
  | none => .error .valueErr

/-- Modelled from the spec: `AbstractPolygon.inverted` (missing base class);
the doctest of `Polygon2.inverted` pins it to reversing the point list. -/
def Polygon.inverted (poly : Polygon) : Polygon := ⟨poly.points.reverse⟩

/-- `Polygon2.clockwise`:
`sum((l.p2.x - l.p1.x) * (l.p2.y + l.p1.y) for l in segments()) > 0`. -/
def Polygon.clockwise (poly : Polygon) : Bool :=
  (poly.segments.foldl (fun s l => s + (l.p2.x - l.p1.x) * (l.p2.y + l.p1.y)) 0) > 0

/-- `Polygon2.to_clockwise`. -/
def Polygon.to_clockwise (poly : Polygon) : Polygon :=
  if poly.clockwise then poly else poly.inverted

/-- `Polygon2.shift`: `Polygon([*points[n:], *points[:n]])` (Python slice
semantics, `n` may be negative). -/
def Polygon.shift (poly : Polygon) (n : Int) : Polygon :=
  ⟨rotateL poly.points (pyIndex poly.points.length n)⟩

/-- `Polygon2.inwards` / `find_inward_ray` (the same code appears in
`plane/__init__.py` and in `engines/pyoffset.py`): cast the midpoint
perpendicular ray, count proper crossings (ignoring hits at each segment's
`p2`), and orient by parity; the result is normalised. -/
def Polygon.inwards (poly : Polygon) (edge : LS) : Py V2 :=
  let mid := (edge.p1 + edge.p2).smul (1/2)
  let rayv := edge.v.cross
  let cnt := (poly.segments.filter (· ≠ edge)).countP fun other =>
    match intersectCore uSeg uRay other.p other.v mid rayv with
    | none => false
    | some i => i ≠ other.p2
  V2.normalized (if cnt % 2 = 1 then rayv else -rayv)

/-- `Polygon2.contains`: boundary touch via `connect`, otherwise an even-odd
ray cast to the right whose intersection points are deduplicated
(`set(...)`) before counting. -/
def Polygon.contains (poly : Polygon) (pt : V2) : Bool :=
  if poly.segments.any
      (fun l => l.v.magSq > 0 ∧ (connP2L2 pt l.p l.v - pt).magSq = 0) then
    true
  else
    let hits := poly.segments.filterMap fun l =>
      intersectCore uRay uSeg pt ⟨1, 0⟩ l.p l.v
    hits.dedup.length % 2 = 1

/-! ### `ComplexPolygon2` (`petrify/plane/__init__.py`) -/

structure ComplexPolygon where
  interior : List Polygon
  exterior : List Polygon
deriving DecidableEq, Repr

/-- The `ComplexPolygon2.__init__` branch taking a flat polygon list:
simplify each polygon (skipping collapsed ones), normalise to clockwise,
and classify as interior when any *other* input polygon contains its first
point. -/
def complexFromList (polygons : List Polygon) : Py ComplexPolygon := do
  let n := polygons.length
  (List.range n).foldlM (fun acc ix => do
    let polygon := polygons.getD ix ⟨[]⟩
    match polygon.simplify with
    | none => pure acc
    | some simple =>
      let simple := if ¬ simple.clockwise then simple.inverted else simple
      match simple.points.head? with
      | none => throw .indexErr
      | some first =>
        let others := polygons.take ix ++ polygons.drop (ix + 1)
        if others.any (fun other => other.contains first) then
          pure ⟨acc.interior ++ [simple], acc.exterior⟩
        else
          pure ⟨acc.interior, acc.exterior ++ [simple]⟩) (⟨[], []⟩ : ComplexPolygon)

/-! ### `petrify/decompose.py` -/

/-- Modelled from the spec: `geometry.quantum` (the version of
`petrify/geometry.py` in the snapshot lacks this constant; §Glossary:
"fixed coordinate-snap grid size making point/segment equality and hashing
robust to floating-point error").  A representative positive grid value;
theorems that depend on the grid are stated for an arbitrary positive grid
wherever the quantified claim needs it. -/
def quantum : ℚ := 1 / 1000000000

/-- `exact_segments`: the cyclically consecutive point pairs as
`ExactSegment`s. -/
def exact_segments (poly : Polygon) : List ES :=
  match poly.points with
  | [] => []
  | q :: qs => (List.zip (q :: qs) (qs ++ [q])).map fun (a, b) => ES.make a b

/-- `Sliced.__init__`: the per-polygon queue of `(min endpoint y, segment)`
pairs, stably sorted by key. -/
def mkSliced (poly : Polygon) : List (ℚ × ES) :=
  sortK (·.1) ((exact_segments poly).map fun l => (min l.p1.y l.p2.y, l))

/-- `Sliced.departures(y)`: pop the prefix whose key equals `y`; report those
popped segments that are not degenerate at this level (a segment whose two
endpoints both lie at `y` departs permanently). -/
def departures (heap : List (ℚ × ES)) (y : ℚ) : List ES × List (ℚ × ES) :=
  let out := heap.takeWhile (·.1 = y)
  (out.filterMap fun pr =>
      if pr.2.p1.y ≠ y ∨ pr.2.p2.y ≠ y then some pr.2 else none,
    heap.drop out.length)

/-- Python dict lookup for a dict built by comprehension (later insertions
override earlier ones): the last matching entry. -/
def dlookup [DecidableEq κ] (entries : List (κ × α)) (k : κ) : Option α :=
  (entries.reverse.find? fun e => e.1 = k).map (·.2)

/-- `grouper(2, xs)` with `fillvalue=None`. -/
def grouper2 : List α → List (α × Option α)
  | [] => []
  | [x] => [(x, none)]
  | x :: y :: rest => (x, some y) :: grouper2 rest

/-- `yl(segment, y)`: intersect the segment with the horizontal line through
`(0, y)` (the dispatch makes the *line* operand `A`, so the returned point is
computed on the line). -/
def yl (l : ES) (y : ℚ) : Option V2 :=
  intersectCore uLine uSeg ⟨0, y⟩ ⟨1, 0⟩ l.p l.v

/-- One active wall pair processed at a level: re-sort the pair by original
segment order, emit the trapezoid against the prior level, and report the
walls that continue past this level. -/
def processPair (order : List (ES × Nat)) (prior : Option ℚ) (level : ℚ)
    (pair : ES × Option ES) : Py (List (Option V2) × List (ℚ × ES)) := do
  match pair.2 with
  | none => throw .keyErr
  | some t =>
    let s := pair.1
    let oS ← match dlookup order s with
      | some i => pure i
      | none => throw .keyErr
    let oT ← match dlookup order t with
      | some i => pure i
      | none => throw .keyErr
    let (s, t) := if oT < oS then (t, s) else (s, t)
    let a0 := yl s level
    let a1 := yl t level
    let pr ← match prior with
      | some pr => pure pr
      | none => throw .assertErr
    let trap := [yl s pr, a0, a1, yl t pr]
    let cont1 ←
      if s.p1.y ≠ level ∧ s.p2.y ≠ level then
        match a0 with
        | some pt => pure [(pt.x, s)]
        | none => throw .attrErr
      else pure []
    let cont2 ←
      if t.p1.y ≠ level ∧ t.p2.y ≠ level then
        match a1 with
        | some pt => pure [(pt.x, t)]
        | none => throw .attrErr
      else pure []
    pure (trap, cont1 ++ cont2)

/-- The sweep of `trapezoidal`, producing the raw quads (whose entries may be
`None` when a wall fails to meet a level line). -/
def trapezoidal_raw (polygons : List Polygon) : Py (List (List (Option V2))) := do
  let polygons := polygons.map Polygon.to_clockwise
  let sliced := polygons.map fun p => mkSliced ⟨p.points⟩
  let order : List (ES × Nat) :=
    polygons.flatMap fun p =>
      ((exact_segments ⟨p.points⟩).enum.map fun (ix, l) => (l, ix))
  let levels :=
    sortK id ((polygons.flatMap fun p => p.points.map (·.y)).dedup)
  let st ← levels.foldlM
    (fun (st : _ × _ × _ × _) level => do
      let (heaps, active, prior, traps) := st
      let popped := heaps.map (departures · level)
      let deps := popped.flatMap (·.1)
      let heaps := popped.map (·.2)
      let (newTraps, contAct) ← active.foldlM
        (fun (acc : _ × _) pair => do
          let (r, c) ← processPair order prior level pair
          pure (acc.1 ++ [r], acc.2 ++ c))
        (([] : List (List (Option V2))), ([] : List (ℚ × ES)))
      let depAct ← deps.mapM fun l => do
        match yl l level with
        | some pt => pure (pt.x, l)
        | none => throw PyErr.attrErr
      let nextActive := sortK (·.1) (contAct ++ depAct)
      pure (heaps, grouper2 (nextActive.map (·.2)), some level, traps ++ newTraps))
    (sliced, ([] : List (ES × Option ES)), (none : Option ℚ),
      ([] : List (List (Option V2))))
  pure st.2.2.2

/-- `tri_area`. -/
def tri_area (a b c : V2) : ℚ :=
  |(a.x * (b.y - c.y) + b.x * (c.y - a.y) + c.x * (a.y - b.y)) / 2|

/-- `trap_area`: unpack the quad as `(a, b, c, d)` and return
`tri_area(a, b, c) + tri_area(b, c, d)`; a `None` entry is a `TypeError`,
a wrong length a `ValueError`. -/
def trap_area (t : List (Option V2)) : Py ℚ := do
  match t with
  | [a?, b?, c?, d?] =>
    let a ← match a? with | some a => pure a | none => throw PyErr.typeErr
    let b ← match b? with | some b => pure b | none => throw PyErr.typeErr
    let c ← match c? with | some c => pure c | none => throw PyErr.typeErr
    let d ← match d? with | some d => pure d | none => throw PyErr.typeErr
    pure (tri_area a b c + tri_area b c d)
  | _ => throw .valueErr

/-- Reading a quad entry when building `plane.Polygon(t)`: a `None` entry
blows up (`TypeError`) once `simplify` does arithmetic on it. -/
def extractPts : Option V2 → Py V2
  | some pt => pure pt
  | none => throw PyErr.typeErr

/-- Read all quad entries (the first `None` raises, as `Polygon(t)` with a
`None` point does once arithmetic touches it). -/
def extractAll : List (Option V2) → Py (List V2)
  | [] => pure []
  | o :: os => do
    let x ← extractPts o
    let xs ← extractAll os
    pure (x :: xs)

/-- One step of the trapezoid post-processing list comprehension of
`trapezoidal`: apply the optional `trap_area(t) > min_area` guard, then
`Polygon(t).simplify()`. -/
def trapStep (min_area : Option ℚ) (acc : List (Option Polygon))
    (t : List (Option V2)) : Py (List (Option Polygon)) := do
  let keep ← match min_area with
    | none => pure true
    | some m => do
      let ar ← trap_area t
      pure (decide (ar > m))
  if keep then
    let pts ← extractAll t
    pure (acc ++ [Polygon.simplify ⟨pts⟩])
  else
    pure acc

/-- `trapezoidal(polygons, min_area)`: run the sweep, apply the optional
`trap_area(t) > min_area` filter, simplify each surviving quad, and keep the
results that survive with more than two points. -/
def trapezoidal (polygons : List Polygon) (min_area : Option ℚ) :
    Py (List Polygon) := do
  let traps ← trapezoidal_raw polygons
  let simplified ← traps.foldlM (trapStep min_area) ([] : List (Option Polygon))
  pure ((simplified.filterMap id).filter fun p => p.points.length > 2)

/-- `snap(l)`: snap both endpoints of the fragment to the grid. -/
def snap (grid : ℚ) (l : ES) : ES := ES.make (l.p1.snap grid) (l.p2.snap grid)

/-- `not_close(a, b)` from `fragment`. -/
def not_close (error : ℚ) (a b : V2) : Bool := (a - b).magSq > error ^ 2

/-- `non_overlapping(a, b)` from `fragment`: `a.v.angle(b.v)` is neither `0`
nor `tau/2`.  In exact arithmetic the angle is `0` or `tau/2` exactly when
`dot(a.v, b.v)² = |a.v|²·|b.v|²`; a zero-length vector makes the Python
`angle` divide by zero. -/
def non_overlapping (a b : ES) : Py Bool := do
  if a.v.magSq = 0 ∨ b.v.magSq = 0 then throw .zeroDiv
  pure (decide (a.v.dot b.v ^ 2 ≠ a.v.magSq * b.v.magSq))

/-- `fragment(segments, error)`: split every segment at the nearby endpoints
of non-parallel other segments, dropping pieces shorter than `error`. -/
def fragment (segments : List ES) (error : ℚ := quantum) : Py (List ES) := do
  segments.enum.foldlM (fun fragments (ix, cutee) => do
    let others := segments.take ix ++ segments.drop (ix + 1)
    let connections ← others.foldlM (fun conns line => do
      [line.p1, line.p2].foldlM (fun conns pt => do
        if not_close error pt cutee.p1 ∧ not_close error pt cutee.p2 then
          let ok ← non_overlapping cutee line
          if ok then
            if cutee.v.magSq = 0 then throw PyErr.assertErr
            pure (conns ++ [(pt, connP2L2 pt cutee.p cutee.v)])
          else pure conns
        else pure conns) conns) ([] : List (V2 × V2))
    let intersects := (connections.filter fun c => (c.2 - c.1).magSq ≤ error ^ 2).map (·.2)
    let parts := sortK (fun a => (cutee.p - a).magSq) intersects
    let points := cutee.p1 :: parts ++ [cutee.p2]
    pure (fragments ++
      ((points.zip points.tail).filterMap fun (a, b) =>
        if not_close error a b then some (ES.make a b) else none))) ([] : List ES)

/-- The `counts` dict of `decouple` as a counting function: for each fragment
`l`, both `snap(l)` and `snap(l.flipped())` are incremented. -/
def decoupleCounts (grid : ℚ) (fragments : List ES) : ES → Nat :=
  fragments.foldl
    (fun cnt l =>
      let cnt1 : ES → Nat := fun k => if k = snap grid l then cnt k + 1 else cnt k
      fun k => if k = snap grid l.flipped then cnt1 k + 1 else cnt1 k)
    (fun _ => 0)

/-- `decouple` with the grid made explicit (the source fixes
`grid = geometry.quantum` for both the fragmentation error and `snap`). -/
def decoupleWith (grid : ℚ) (segments : List ES) : Py (List ES) := do
  let fragments ← fragment segments grid
  let counts := decoupleCounts grid fragments
  pure (fragments.filter fun l => counts (snap grid l) = 1)

/-- `decouple(segments)` as in the source (grid = `quantum`). -/
def decouple (segments : List ES) : Py (List ES) := decoupleWith quantum segments

/-- `index_by(((p, l) for l in valid for p in (l.p1, l.p2)), fst)[p]`,
specialised to the way `recreate_polygons` reads it: the fragments of
`valid` incident to `p`, in insertion order. -/
def by_point (valid : List ES) : V2 → List ES := fun p =>
  valid.flatMap fun l =>
    (if l.p1 = p then [l] else []) ++ (if l.p2 = p then [l] else [])

/-- The inner `while p2:` walk of `recreate_polygons`: follow the unique
other fragment incident to the far endpoint.  `set(ls) - set([l])` with
cardinality ≠ 1 is the Python unpacking `ValueError`; a missing
`valid.remove` is a `KeyError`.  Fuel only guards the loop; the caller
passes enough for the removals to exhaust `valid` first. -/
def walkLoop (bp : V2 → List ES) (first : V2) :
    Nat → List ES → ES → Option V2 → List V2 → Py (List V2 × List ES)
  | _, valid, _, none, acc => .ok (acc, valid)
  | 0, _, _, some _, _ => .error .fuel
  | n + 1, valid, l, some p2, acc =>
    let acc := acc ++ [p2]
    let ls := bp p2
    if ls.isEmpty then .error .keyErr
    else
      match ls.dedup.filter (· ≠ l) with
      | [lnext] =>
        match removeFirst valid lnext with
        | none => .error .keyErr
        | some valid' =>
          let p2' := if lnext.p2 = first then none else some lnext.p2
          walkLoop bp first n valid' lnext p2' acc
      | _ => .error .valueErr

/-- The outer `while valid:` loop of `recreate_polygons`, including the
strict-shrinkage `assert`. -/
def recLoop (bp : V2 → List ES) : Nat → List ES → Nat → Py (List Polygon)
  | _, [], _ => .ok []
  | 0, _ :: _, _ => .error .fuel
  | n + 1, l :: rest, size => do
    let (pts, valid') ← walkLoop bp l.p1 (rest.length + 2) rest l (some l.p2) [l.p1]
    if valid'.length = size then throw .assertErr
    else do
      let more ← recLoop bp n valid' valid'.length
      pure (Polygon.mk pts :: more)

/-- `recreate_polygons(segments)` (grid explicit; the source fixes
`geometry.quantum`): snap and deduplicate the fragments, then repeatedly walk
loops.  The Python `set` iteration order is modelled by the deduplicated
list order. -/
def recreate_polygons (grid : ℚ) (segments : List ES) : Py (List Polygon) :=
  if segments.isEmpty then .error .indexErr
  else
    let valid := (segments.map (snap grid)).dedup
    recLoop (by_point valid) (valid.length + 1) valid valid.length

/-! ### `petrify/engines/pyoffset.py` -/

/-- The heterogeneous object built by `pyoffset.offset`:
`ComplexPolygon(interior=off(...), exterior=off(...))` where the members of
both lists are themselves the `ComplexPolygon` results of the recursive
`p.offset(v)` calls. -/
inductive PyComplex where
  | mk (interior : List PyComplex) (exterior : List PyComplex)

mutual

/-- `Polygon2.offset` (`petrify/plane/__init__.py`):
`ComplexPolygon(exterior=[self], interior=[]).offset(amount)`.
The fuel models the Python call stack depth. -/
def Polygon.offset : Nat → Polygon → ℚ → Py PyComplex
  | 0, _, _ => .error .fuel
  | n + 1, p, a => ComplexPolygon.offset n ⟨[], [p]⟩ a

/-- `ComplexPolygon2.offset`: delegates to the process-wide engine,
`engines.offset.offset`, which defaults to `pyoffset` (the optional
`pyclipper` override is not part of this repository). -/
def ComplexPolygon.offset : Nat → ComplexPolygon → ℚ → Py PyComplex
  | 0, _, _ => .error .fuel
  | n + 1, c, a => pyoffset_offset n c a

/-- `pyoffset.offset(polygon, amount)`: offset the interiors by `-amount`
and the exteriors by `amount` via each member's `p.offset(v)` (the
`p is not None` filter never fires because `Polygon2.offset` never returns
`None`). -/
def pyoffset_offset : Nat → ComplexPolygon → ℚ → Py PyComplex
  | 0, _, _ => .error .fuel
  | n + 1, c, a => do
    let i ← offList n c.interior (-a)
    let e ← offList n c.exterior a
    pure (.mk i e)

/-- The list comprehension inside `pyoffset.offset`'s `off` helper. -/
def offList : Nat → List Polygon → ℚ → Py (List PyComplex)
  | 0, _, _ => .error .fuel
  | _ + 1, [], _ => .ok []
  | n + 1, p :: ps, v => do
    let r ← Polygon.offset n p v
    let rest ← offList n ps v
    pure (r :: rest)

end

/-- `magnitude(line, normal, inwards)`: solve
`w * inwards - u * line = normal` and scale `inwards` by `w`. -/
def magnitude (line normal inwards : V2) : Py V2 := do
  let sol ← solve_matrix
    [[inwards.x, -line.x, normal.x], [inwards.y, -line.y, normal.y]]
  pure (inwards.smul (sol.getD 0 0))

/-- `offset_inward_ray(polygon, ix)`: the per-vertex inward ray derived from
the two edges adjacent to vertex `ix`. -/
def offset_inward_ray (polygon : Polygon) (ix : Nat) : Py Ray := do
  let shifted := polygon.shift ((ix : Int) - 1)
  let segments := shifted.segments
  let a ← match segments.get? 0 with
    | some s => pure s | none => throw PyErr.indexErr
  let b ← match segments.get? 1 with
    | some s => pure s | none => throw PyErr.indexErr
  let ai ← polygon.inwards a
  let bi ← polygon.inwards b
  let origin ← match shifted.points.get? 1 with
    | some p => pure p | none => throw PyErr.indexErr
  let v ← magnitude a.v ai (ai + bi)
  pure ⟨origin, v⟩

/-- `find_inward_ray(polygon, edge)`: textually the same code as
`Polygon2.inwards`. -/
def find_inward_ray (polygon : Polygon) (edge : LS) : Py V2 :=
  polygon.inwards edge

/-- `find_collision(line, normal, vertex, inwards)`: solve
`x * line.v + (normal - inwards) * y = vertex - line.p`, reject `x` outside
the edge span, and return the collision point with its offset `y`. -/
def find_collision (line : LS) (normal vertex inwards : V2) :
    Py (Option (V2 × ℚ)) := do
  let sol ← solve_matrix
    [[line.v.x, (normal - inwards).x, (vertex - line.p).x],
     [line.v.y, (normal - inwards).y, (vertex - line.p).y]]
  let s0 := sol.getD 0 0
  let s1 := sol.getD 1 0
  if s0 < 0 ∨ s0 > 1 then pure none
  else pure (some (line.p + line.v.smul s0 + normal.smul s1, s1))

/-- `safe_find_collision`: catch exactly `ZeroDivisionError` and treat it as
"no collision"; every other outcome is passed through. -/
def safe_find_collision (line : LS) (normal vertex inwards : V2) :
    Py (Option (V2 × ℚ)) :=
  match find_collision line normal vertex inwards with
  | .error .zeroDiv => .ok none
  | r => r

/-- Dict lookup returning Python's `KeyError` when absent. -/
def dlookupPy [DecidableEq κ] (entries : List (κ × α)) (k : κ) : Py α :=
  match dlookup entries k with
  | some v => .ok v
  | none => .error .keyErr

/-- `find_collisions(ray, segments, inwards)`: the positive-offset collisions
of one ray against the edges not incident to its origin. -/
def find_collisions (ray : Ray) (segments : List LS)
    (inwards : List (LS × V2)) : Py (List ((LS × V2) × V2 × ℚ)) := do
  (segments.filter fun o => o.p1 ≠ ray.p ∧ o.p2 ≠ ray.p).foldlM
    (fun acc other => do
      let iw ← dlookupPy inwards other
      let r ← safe_find_collision other iw ray.p ray.v
      match r with
      | some (p, o) => if o > 0 then pure (acc ++ [((other, ray.p), p, o)]) else pure acc
      | none => pure acc) ([] : List ((LS × V2) × V2 × ℚ))

/-- `inner_properties(polygon)`: the segments plus the per-segment inward
normals dict. -/
def inner_properties (polygon : Polygon) : Py (List LS × List (LS × V2)) := do
  let segments := polygon.segments
  let inwards ← segments.mapM fun s => do
    let v ← find_inward_ray polygon s
    pure (s, v)
  pure (segments, inwards)

/-- `to_rays(polygon)`. -/
def to_rays (polygon : Polygon) : Py (List Ray) :=
  (List.range polygon.points.length).mapM (offset_inward_ray polygon)

/-- `shift(l, n)` from `pyoffset.py` (Python `[*l[n:], *l[:n]]` for the
nonnegative `n = line_i + 1` it is called with). -/
def shift (l : List α) (n : Nat) : List α := rotateL l n

/-- `partition(rays, cut_i, line_i)`: split the rotated ray list at the
splitting ray. -/
def partition (rays : List Ray) (cut_i line_i : Nat) :
    Py (List Ray × List Ray) := do
  let splitter ← match rays.get? cut_i with
    | some r => pure r | none => throw PyErr.indexErr
  let shifted := shift rays (line_i + 1)
  let st := shifted.foldl
    (fun st ray =>
      let (a, b, split) := st
      if ray = splitter then (a, b, true)
      else if ¬ split then (a ++ [ray], b, split)
      else (a, b ++ [ray], split))
    (([] : List Ray), ([] : List Ray), false)
  pure (st.1, st.2.1)

/-- `find_merge_ray(a, b, line, inwards)`: synthesise the merged ray at the
cut boundary; a parallel (`None`) line intersection makes the `Ray`
constructor fail (`TypeError`). -/
def find_merge_ray (a b : V2) (line : LS) (inwards : List (LS × V2)) :
    Py Ray := do
  let segment := LS.mk2 a b
  let newVertex? := intersectCore uLine uLine line.p1 (line.p2 - line.p1)
    segment.p1 (segment.p2 - segment.p1)
  match newVertex? with
  | none => throw .typeErr
  | some nv => do
    let ai ← dlookupPy inwards segment
    let bi ← dlookupPy inwards line
    let v ← magnitude segment.v ai (ai + bi)
    pure ⟨nv, v⟩

/-- `find_first_split_event(rays)`: find the minimum-offset collision over
the whole ray list (Python `min` raises `ValueError` when no ray has a
positive collision), partition at the winning vertex/edge pair, and attach
the merge rays. -/
def find_first_split_event (rays : List Ray) : Py (ℚ × List (List Ray)) := do
  let polygon : Polygon := ⟨rays.map (·.p)⟩
  let pr ← inner_properties polygon
  let (segments, inwards) := pr
  let all_collisions ← rays.mapM fun ray => find_collisions ray segments inwards
  let solutions := all_collisions.filterMap fun collisions =>
    minByQ (fun t => t.2.2) collisions
  let best ← match minByQ (fun t => t.2.2) solutions with
    | some t => pure t
    | none => throw PyErr.valueErr
  let segment := best.1.1
  let cutPt := best.1.2
  let offs := best.2.2
  let cut_i ← polygon.index_of cutPt
  let line_i ← polygon.index_of segment.p1
  let cut ← match polygon.points.get? cut_i with
    | some p => pure p | none => throw PyErr.indexErr
  let n := polygon.points.length
  let lp1 ← match polygon.points.get? line_i with
    | some p => pure p | none => throw PyErr.indexErr
  let lp2 ← match polygon.points.get? ((line_i + 1) % n) with
    | some p => pure p | none => throw PyErr.indexErr
  let line := LS.mk2 lp1 lp2
  let pab ← partition rays cut_i line_i
  let (a, b) := pab
  let a ← if a.length > 1 then do
      let last ← match a.getLast? with
        | some r => pure r | none => throw PyErr.indexErr
      let mr ← find_merge_ray last.p cut line inwards
      pure (a ++ [mr])
    else pure []
  let b ← if b.length > 1 then do
      let hd ← match b.head? with
        | some r => pure r | none => throw PyErr.indexErr
      let mr ← find_merge_ray cut hd.p line inwards
      pure (mr :: b)
    else pure []
  pure (offs, [a, b].filter (· ≠ []))

/-- `safe_find_first_split_event`: catch exactly `ZeroDivisionError`. -/
def safe_find_first_split_event (rays : List Ray) :
    Py (Option (ℚ × List (List Ray))) :=
  match find_first_split_event rays with
  | .error .zeroDiv => .ok none
  | .error e => .error e
  | .ok v => .ok (some v)

/-- `min(amounts)` over the available split offsets. -/
def minQ (l : List ℚ) : Option ℚ := minByQ id l

/-- The `while amounts and amount >= min(amounts):` loop of
`nonlocal_offset`, on the worklist of `(rays, next-event)` pairs.  Fuel
exhaustion while the condition still holds is `PyErr.fuel`. -/
def nlLoop (amount : ℚ) :
    Nat → List (List Ray × Option (ℚ × List (List Ray))) →
    Py (List (List Ray))
  | fuel, offsets =>
    let amounts := offsets.filterMap fun o => o.2.map (·.1)
    let cond := match minQ amounts with
      | none => false
      | some m => amount ≥ m
    if cond then
      match fuel with
      | 0 => .error .fuel
      | n + 1 => do
        let all_rays := offsets.flatMap fun o =>
          match o.2 with
          | none => [o.1]
          | some (off, subs) => if off > amount then [o.1] else subs
        let offsets' ← all_rays.mapM fun rays => do
          let ev ← safe_find_first_split_event rays
          pure (rays, ev)
        nlLoop amount n offsets'
    else .ok (offsets.map (·.1))

/-- `nonlocal_offset(complex, amount)`: build the inward rays of the
*exterior* boundaries, run the split-event loop, advance every ray by
`amount`, and classify the resulting polygon list through the
`ComplexPolygon` constructor. -/
def nonlocal_offset (fuel : Nat) (complex : ComplexPolygon) (amount : ℚ) :
    Py ComplexPolygon := do
  let all_rays ← complex.exterior.mapM to_rays
  let offsets ← all_rays.mapM fun rays => do
    let ev ← safe_find_first_split_event rays
    pure (rays, ev)
  let final ← nlLoop amount fuel offsets
  complexFromList (final.map fun rays =>
    ⟨rays.map fun r => r.p + r.v.smul amount⟩)

/-! ### Signed/absolute shoelace area (reference definition for the area
claims; follows the spec's words "shoelace area") -/

/-- Twice the signed shoelace sum of a cyclic point list. -/
def shoelace (pts : List V2) : ℚ :=
  match pts with
  | [] => 0
  | q :: qs =>
    ((q :: qs).zip (qs ++ [q])).foldl (fun s (a, b) => s + (a.x * b.y - b.x * a.y)) 0

/-- The absolute shoelace area of a cyclic point list. -/
def shoelaceArea (pts : List V2) : ℚ := |shoelace pts| / 2

/-! ### Concrete inputs used by the closed theorems below -/

/-- The unit square `Polygon([(0,0),(0,1),(1,1),(1,0)])` of the spec's first
concrete scenario. -/
def unitSquare : Polygon := ⟨[⟨0,0⟩, ⟨0,1⟩, ⟨1,1⟩, ⟨1,0⟩]⟩

/-- A degenerate (collinear) triangle: a legal 3-point polygon input. -/
def collinearTri : Polygon := ⟨[⟨0,0⟩, ⟨1,0⟩, ⟨2,0⟩]⟩

/-- A square hole used as an interior boundary. -/
def holeU : Polygon := ⟨[⟨6,2⟩, ⟨7,2⟩, ⟨7,3⟩, ⟨6,3⟩]⟩

/-- A right-trapezoid whose sweep produces a single quad with unequal
parallel sides. -/
def p8 : Polygon := ⟨[⟨0,0⟩, ⟨0,1⟩, ⟨1,1⟩, ⟨3,0⟩]⟩

/-- The quad the sweep emits for `p8`. -/
def t8 : List (Option V2) := [some ⟨0,0⟩, some ⟨0,1⟩, some ⟨1,1⟩, some ⟨3,0⟩]

/-- Three fragments meeting at the T-junction point `(1,0)`. -/
def tjunc : List ES :=
  [ES.make ⟨0,0⟩ ⟨1,0⟩, ES.make ⟨1,0⟩ ⟨2,0⟩, ES.make ⟨1,0⟩ ⟨1,1⟩]

/-- A fragment longer than `quantum` whose two endpoints nevertheless snap
to the same grid point. -/
def segC3 : ES :=
  ES.make ⟨9 * quantum / 20, 9 * quantum / 20⟩
    ⟨-(9 * quantum / 20), -(9 * quantum / 20)⟩

/-! ## Theorems -/

/-! ### C9: `ExactSegment` stores and compares the verbatim endpoint pair -/

/-- C9: `ExactSegment(p1, p2)` stores both endpoints verbatim (`.p1` is the
given first point and `.p2` the given second point, never reconstructed as
`p1 + (p2 - p1)`), and its equality is computed from the stored ordered
endpoint pair, so two `ExactSegment`s are equal exactly when their stored
`(p1, p2)` pairs are equal. -/
theorem exact_segment_identity :
    (∀ a b : V2, (ES.make a b).p1 = a ∧ (ES.make a b).p2 = b) ∧
    (∀ s t : ES, ES.beq s t = true ↔ s.p1 = t.p1 ∧ s.p2 = t.p2) := by
  refine ⟨fun a b => ⟨rfl, rfl⟩, fun s t => ?_⟩
  simp [ES.beq, Prod.ext_iff]

/-! ### C10: `solve_matrix` returns the solution but mutates its argument -/

/-- C10 counterexample: on the augmented matrix `[[1,2,3],[4,5,6]]`,
`solve_matrix` returns the correct solution `[-1, 2]`, but the matrix the
caller passed ends up as `[[4,5,-4],[0,3/4,3/2]]` — the pivot swap,
elimination, and back-substitution all wrote through to the argument, so
the claim "leaving the caller's argument matrix A unchanged" is false. -/
theorem solve_matrix_mutates_argument :
    solveMatrixSt [[1,2,3],[4,5,6]] = .ok ([-1,2], [[4,5,-4],[0,3/4,3/2]]) ∧
    ([[4,5,-4],[0,3/4,3/2]] : List (List ℚ)) ≠ [[1,2,3],[4,5,6]] ∧
    (1 : ℚ) * (-1) + 2 * 2 = 3 ∧ (4 : ℚ) * (-1) + 5 * 2 = 6 := by
  refine ⟨by decide, by decide, by norm_num, by norm_num⟩

set_option maxHeartbeats 1000000 in
/-- C10 (amended): `solve_matrix` does return the solution vector — for
every well-conditioned 2×2 augmented system (a nonzero pivot column and a
nonzero determinant, the shape every `pyoffset` caller solves) the returned
vector satisfies both equations — but the matrix state it returns alongside
differs in general from the input (the mutation exhibited above). -/
theorem solve_matrix_solves_2x2 (a b c d e f : ℚ)
    (hp : a ≠ 0 ∨ d ≠ 0) (hdet : a * e - b * d ≠ 0) :
    ∃ x1 x2 M, solveMatrixSt [[a, b, c], [d, e, f]] = .ok ([x1, x2], M) ∧
      a * x1 + b * x2 = c ∧ d * x1 + e * x2 = f := by
  unfold solveMatrixSt
  rcases lt_or_le |a| |d| with hcmp | hcmp
  · have hd : d ≠ 0 := by
      intro h0
      rw [h0] at hcmp
      simp at hcmp
      exact absurd (abs_nonneg a) (not_le.mpr hcmp)
    have h3 : -(a * e) + d * b ≠ 0 := by
      intro h0
      apply hdet
      linarith
    simp only [List.length_cons, List.length_nil, List.range_succ, List.range_zero,
      List.nil_append, List.cons_append, List.foldlM_cons, List.foldlM_nil,
      List.range'_succ, List.foldl_cons, List.foldl_nil]
    norm_num [getM, setM, hcmp, hd]
    have h2 : b + -a / d * e ≠ 0 := by
      field_simp
      intro h0
      apply hdet
      linarith
    rw [if_neg h2]
    norm_num [hd]
    refine ⟨(f - e * ((c + -a / d * f) / (b + -a / d * e))) / d,
      (c + -a / d * f) / (b + -a / d * e), ⟨_, rfl⟩, ?_, ?_⟩
    · field_simp [hd, h3]
      try ring
      try linear_combination (c * d - a * f) * mul_inv_cancel₀ h3
    · field_simp [hd, h3]
      try ring
      try linear_combination (c * d - a * f) * mul_inv_cancel₀ h3
  · have ha : a ≠ 0 := by
      rcases hp with h | h
      · exact h
      · intro h0
        rw [h0] at hcmp
        simp at hcmp
        exact h hcmp
    have h3 : -(d * b) + a * e ≠ 0 := by
      intro h0
      apply hdet
      linarith
    simp only [List.length_cons, List.length_nil, List.range_succ, List.range_zero,
      List.nil_append, List.cons_append, List.foldlM_cons, List.foldlM_nil,
      List.range'_succ, List.foldl_cons, List.foldl_nil]
    norm_num [getM, setM, not_lt.mpr hcmp, ha]
    have h2 : e + -d / a * b ≠ 0 := by
      field_simp
      intro h0
      apply hdet
      linarith
    rw [if_neg h2]
    norm_num [ha]
    refine ⟨(c - b * ((f + -d / a * c) / (e + -d / a * b))) / a,
      (f + -d / a * c) / (e + -d / a * b), ⟨_, rfl⟩, ?_, ?_⟩
    · field_simp [ha, h3]
      try ring
      try linear_combination (f * a - d * c) * mul_inv_cancel₀ h3
    · field_simp [ha, h3]
      try ring
      try linear_combination (f * a - d * c) * mul_inv_cancel₀ h3

/-- C10 witness: the well-conditioned system `[[1,2,3],[4,5,6]]` satisfies
both hypotheses and `solve_matrix` solves it. -/
theorem solve_matrix_solves_2x2_witness :
    ((1 : ℚ) ≠ 0 ∨ (4 : ℚ) ≠ 0) ∧ (1 : ℚ) * 5 - 2 * 4 ≠ 0 ∧
    ∃ x1 x2 M, solveMatrixSt [[1, 2, 3], [4, 5, 6]] = .ok ([x1, x2], M) ∧
      1 * x1 + 2 * x2 = 3 ∧ 4 * x1 + 5 * x2 = 6 :=
  ⟨Or.inl (by norm_num), by norm_num,
    solve_matrix_solves_2x2 1 2 3 4 5 6 (Or.inl (by norm_num)) (by norm_num)⟩

/-! ### C1: the default engine's offset entry point never returns -/

theorem offset_square_aux (a : ℚ) :
    ∀ n, ComplexPolygon.offset n ⟨[], [unitSquare]⟩ a = .error .fuel := by
  intro n
  induction n using Nat.strong_induction_on with
  | _ n ih =>
    match n with
    | 0 => rfl
    | 1 => rfl
    | 2 => rfl
    | 3 => rfl
    | (m + 4) =>
      have h := ih m (by omega)
      simp only [ComplexPolygon.offset, pyoffset_offset, offList, Polygon.offset]
      simp only [h]
      rfl

/-- C1: offsetting the unit square inward by `0.1` through the 4.4 engine's
offset entry point (`Polygon2.offset` → `ComplexPolygon2.offset` →
`pyoffset.offset`, the default engine) never returns: for every call-stack
budget the mutual recursion `pyoffset.offset → p.offset(v) →
ComplexPolygon.offset → pyoffset.offset` runs out of fuel, modelling the
Python `RecursionError`, instead of producing the inset square that
`Polygon2.offset`'s own doctest and `test_inset` expect. -/
theorem offset_unit_square_never_returns :
    ∀ fuel, Polygon.offset fuel unitSquare (-(1/10)) = .error .fuel := by
  intro fuel
  cases fuel with
  | zero => rfl
  | succ n => exact offset_square_aux (-(1/10)) n

/-! ### C4: `nonlocal_offset` discards interior boundaries -/

/-- C4 (amended): `nonlocal_offset` reads only `complex.exterior`; its
result is entirely independent of the interior (hole) boundaries, which are
discarded rather than offset with an inverted sign. -/
theorem nonlocal_offset_ignores_interior (fuel : Nat) (ext int1 int2 : List Polygon)
    (a : ℚ) :
    nonlocal_offset fuel ⟨int1, ext⟩ a = nonlocal_offset fuel ⟨int2, ext⟩ a := rfl

/-- C4 counterexample: a `ComplexPolygon` with a non-empty interior comes
back from `nonlocal_offset` with *no* interiors at all (here even no
polygons at all), instead of an output whose interiors are the offset
holes. -/
theorem nonlocal_offset_discards_holes :
    nonlocal_offset 10 ⟨[holeU], []⟩ 1 = .ok ⟨[], []⟩ ∧ [holeU] ≠ [] :=
  ⟨by decide, by decide⟩

/-! ### C5: a `ZeroDivisionError` can escape `nonlocal_offset` -/

/-- C5 (amended): degenerate linear systems arising in the collision and
split-event computations are caught by `safe_find_collision` /
`safe_find_first_split_event` (exactly `ZeroDivisionError` becomes "no
collision"; everything else propagates). -/
theorem degenerate_solve_caught_locally :
    (∀ (line : LS) (n v i : V2) (e : PyErr),
      find_collision line n v i = .error e →
      safe_find_collision line n v i =
        if e = .zeroDiv then .ok none else .error e) ∧
    (∀ (rays : List Ray) (e : PyErr),
      find_first_split_event rays = .error e →
      safe_find_first_split_event rays =
        if e = .zeroDiv then .ok none else .error e) := by
  constructor
  · intro line n v i e h
    unfold safe_find_collision
    rw [h]
    cases e <;> simp
  · intro rays e h
    unfold safe_find_first_split_event
    rw [h]
    cases e <;> simp

/-- C5 witness for the catch theorem: a parallel collision system raises the
divide-by-zero and is converted to "no collision"; an eventless ray list
raises `ValueError`, which is *not* caught. -/
theorem degenerate_solve_caught_witness :
    find_collision ⟨⟨0,0⟩,⟨1,0⟩⟩ ⟨0,0⟩ ⟨0,1⟩ ⟨0,0⟩ = .error .zeroDiv ∧
    safe_find_collision ⟨⟨0,0⟩,⟨1,0⟩⟩ ⟨0,0⟩ ⟨0,1⟩ ⟨0,0⟩ = .ok none ∧
    find_first_split_event [] = .error .valueErr ∧
    safe_find_first_split_event [] = .error .valueErr := by
  have h1 := degenerate_solve_caught_locally.1 ⟨⟨0,0⟩,⟨1,0⟩⟩ ⟨0,0⟩ ⟨0,1⟩ ⟨0,0⟩
    .zeroDiv (by decide)
  have h2 := degenerate_solve_caught_locally.2 [] .valueErr (by decide)
  exact ⟨by decide, by simpa using h1, by decide, by simpa using h2⟩

/-- C5 counterexample: the initial per-vertex inward-ray construction
(`to_rays` / `offset_inward_ray`) is *not* protected: for the collinear
triangle the `magnitude` solve is singular, and the resulting
`ZeroDivisionError` propagates out of `nonlocal_offset` to the caller. -/
theorem zero_division_escapes_nonlocal_offset :
    to_rays collinearTri = .error .zeroDiv ∧
    nonlocal_offset 10 ⟨[], [collinearTri]⟩ (1/10) = .error .zeroDiv :=
  ⟨by decide, by decide⟩

/-! ### C3: `decouple` keeps fragments by a double count, not an undirected
occurrence count -/

theorem decoupleCounts_aux (grid : ℚ) (frags : List ES) :
    ∀ (cnt : ES → Nat) (k : ES),
    (frags.foldl
      (fun cnt l =>
        let cnt1 : ES → Nat := fun k => if k = snap grid l then cnt k + 1 else cnt k
        fun k => if k = snap grid l.flipped then cnt1 k + 1 else cnt1 k)
      cnt) k
    = cnt k + (frags.countP fun m => snap grid m = k)
            + (frags.countP fun m => snap grid m.flipped = k) := by
  induction frags with
  | nil => intro cnt k; simp
  | cons l ls ih =>
    intro cnt k
    simp only [List.foldl_cons, List.countP_cons, ih]
    rcases eq_or_ne k (snap grid l) with h1 | h1 <;>
      rcases eq_or_ne k (snap grid l.flipped) with h2 | h2
    · rw [if_pos h2, if_pos h1]
      simp [h1.symm, h2.symm]
      try omega
    · rw [if_neg h2, if_pos h1]
      simp [h1.symm, Ne.symm h2]
      try omega
    · rw [if_pos h2, if_neg h1]
      simp [Ne.symm h1, h2.symm]
      try omega
    · rw [if_neg h2, if_neg h1]
      simp [Ne.symm h1, Ne.symm h2]
      try omega

/-- The `counts` dict of `decouple` counts every fragment twice: once under
its own snapped key and once under its snapped reverse's key. -/
theorem decoupleCounts_eq (grid : ℚ) (frags : List ES) (k : ES) :
    decoupleCounts grid frags k =
      (frags.countP fun m => snap grid m = k) +
      (frags.countP fun m => snap grid m.flipped = k) := by
  unfold decoupleCounts
  rw [decoupleCounts_aux]
  simp

/-- C3 (amended): a fragment `l` survives `decouple` exactly when the number
of fragments snapping to `snap(l)` *plus* the number whose reverse snaps to
`snap(l)` is one.  This agrees with the claimed undirected-occurrence count
except for fragments whose snapped form is its own reverse (both endpoints
snap to the same grid point): those contribute twice for themselves and are
therefore always dropped. -/
theorem decouple_keeps_double_count_one (grid : ℚ) (segs frags : List ES)
    (h : fragment segs grid = .ok frags) :
    decoupleWith grid segs = .ok (frags.filter fun l =>
      (frags.countP fun m => snap grid m = snap grid l) +
      (frags.countP fun m => snap grid m.flipped = snap grid l) = 1) := by
  unfold decoupleWith
  rw [h]
  show Except.ok (frags.filter fun l => decoupleCounts grid frags (snap grid l) = 1) = _
  congr 1
  apply List.filter_congr
  intro x _
  simp [decoupleCounts_eq]

/-- C3 witness: on a single ordinary segment the double count is one and the
fragment is kept. -/
theorem decouple_keeps_double_count_one_witness :
    fragment [ES.make ⟨0,0⟩ ⟨1,0⟩] quantum = .ok [ES.make ⟨0,0⟩ ⟨1,0⟩] ∧
    decoupleWith quantum [ES.make ⟨0,0⟩ ⟨1,0⟩] =
      .ok ([ES.make ⟨0,0⟩ ⟨1,0⟩].filter fun l =>
        ([ES.make ⟨0,0⟩ ⟨1,0⟩].countP fun m => snap quantum m = snap quantum l) +
        ([ES.make ⟨0,0⟩ ⟨1,0⟩].countP fun m => snap quantum m.flipped = snap quantum l)
          = 1) := by
  have h : fragment [ES.make ⟨0,0⟩ ⟨1,0⟩] quantum = .ok [ES.make ⟨0,0⟩ ⟨1,0⟩] := by
    decide
  exact ⟨h, decouple_keeps_double_count_one quantum _ _ h⟩

/-- C3 counterexample: `segC3` is the only fragment, and exactly one
fragment (itself) snaps to it or to its reverse — the claimed rule would
keep it — yet `decouple` drops it, because its endpoints snap to the same
grid point, so its own two dict contributions already make the count two. -/
theorem decouple_drops_unique_degenerate_fragment :
    fragment [segC3] quantum = .ok [segC3] ∧
    ([segC3].countP fun m =>
      snap quantum m = snap quantum segC3 ∨
      snap quantum m = (snap quantum segC3).flipped) = 1 ∧
    decouple [segC3] = .ok [] :=
  ⟨by decide, by decide, by decide⟩

/-! ### C6: `recreate_polygons` errors out at a branch instead of guessing -/

/-- C6: whenever the walk of `recreate_polygons` stands at a point where
the fragments incident to it, other than the one just traversed, number
more than one (a branch / T-junction), the "find the single other fragment"
step raises the unpacking `ValueError` — it never silently picks a branch;
the outer loop propagates the error, and on the concrete T-junction input
`tjunc` the whole call fails with exactly that error. -/
theorem recreate_polygons_rejects_branches :
    (∀ (bp : V2 → List ES) (first : V2) (n : Nat) (valid : List ES) (l : ES)
        (p2 : V2) (acc : List V2),
      1 < ((bp p2).dedup.filter (· ≠ l)).length →
      walkLoop bp first (n + 1) valid l (some p2) acc = .error .valueErr) ∧
    (∀ (bp : V2 → List ES) (n : Nat) (l : ES) (rest : List ES) (size : Nat)
        (e : PyErr),
      walkLoop bp l.p1 (rest.length + 2) rest l (some l.p2) [l.p1] = .error e →
      recLoop bp (n + 1) (l :: rest) size = .error e) ∧
    recreate_polygons quantum tjunc = .error .valueErr := by
  refine ⟨?_, ?_, by decide⟩
  · intro bp first n valid l p2 acc h
    have hne : ¬ (bp p2).isEmpty = true := by
      intro h0
      rw [List.isEmpty_iff] at h0
      rw [h0] at h
      simp at h
    rw [walkLoop]
    rw [if_neg hne]
    split
    · next lnext heq =>
      rw [heq] at h
      simp at h
    · rfl
  · intro bp n l rest size e h
    simp only [recLoop]
    rw [h]
    rfl

/-- C6 witness: the walk state standing at the T-junction point `(1, 0)` of
`tjunc`, arrived via its first fragment, has two alternatives and errors;
the outer loop and the full call propagate it. -/
theorem recreate_polygons_rejects_branches_witness :
    walkLoop (by_point tjunc) ⟨0,0⟩ 4 [ES.make ⟨1,0⟩ ⟨2,0⟩, ES.make ⟨1,0⟩ ⟨1,1⟩]
      (ES.make ⟨0,0⟩ ⟨1,0⟩) (some ⟨1,0⟩) [⟨0,0⟩] = .error .valueErr ∧
    recLoop (by_point tjunc) 4
      (ES.make ⟨0,0⟩ ⟨1,0⟩ :: [ES.make ⟨1,0⟩ ⟨2,0⟩, ES.make ⟨1,0⟩ ⟨1,1⟩]) 3 =
      .error .valueErr ∧
    recreate_polygons quantum tjunc = .error .valueErr := by
  have h1 := recreate_polygons_rejects_branches.1 (by_point tjunc) ⟨0,0⟩ 3
    [ES.make ⟨1,0⟩ ⟨2,0⟩, ES.make ⟨1,0⟩ ⟨1,1⟩] (ES.make ⟨0,0⟩ ⟨1,0⟩) ⟨1,0⟩ [⟨0,0⟩]
    (by decide)
  have h2 := recreate_polygons_rejects_branches.2.1 (by_point tjunc) 3
    (ES.make ⟨0,0⟩ ⟨1,0⟩) [ES.make ⟨1,0⟩ ⟨2,0⟩, ES.make ⟨1,0⟩ ⟨1,1⟩] 3 .valueErr h1
  exact ⟨h1, h2, recreate_polygons_rejects_branches.2.2⟩

/-! ### C8: the `min_area` filter compares `tri_area(a,b,c) + tri_area(b,c,d)`,
which is not the quad's shoelace area -/

theorem bind_ok_eq {α β : Type} (x : α) (f : α → Py β) :
    ((Except.ok x : Py α) >>= f) = f x := rfl

theorem bind_error_eq {α β : Type} (e : PyErr) (f : α → Py β) :
    ((Except.error e : Py α) >>= f) = Except.error e := rfl

theorem pure_bind_eq {α β : Type} (x : α) (f : α → Py β) :
    ((pure x : Py α) >>= f) = f x := rfl

theorem extract_mapM_eq :
    ∀ (t : List (Option V2)) (pts : List V2),
      extractAll t = .ok pts → t = pts.map some := by
  intro t
  induction t with
  | nil =>
    intro pts h
    cases h
    rfl
  | cons o os ih =>
    intro pts h
    cases o with
    | none =>
      rw [show extractAll (none :: os) =
        (Except.error PyErr.typeErr : Py (List V2)) from rfl] at h
      cases h
    | some x =>
      rw [show extractAll (some x :: os) =
        (extractAll os >>= fun xs => pure (x :: xs)) from rfl] at h
      cases hrec : extractAll os with
      | error e =>
        rw [hrec, bind_error_eq] at h
        cases h
      | ok rest =>
        rw [hrec, bind_ok_eq] at h
        cases h
        simp [ih rest hrec]

theorem trapStep_mem (m : ℚ) (acc : List (Option Polygon)) (t : List (Option V2))
    (res : List (Option Polygon)) (h : trapStep (some m) acc t = .ok res) :
    ∀ op ∈ res, op ∈ acc ∨
      ∃ ar, trap_area t = .ok ar ∧ m < ar ∧
        ∃ pts, t = pts.map some ∧ op = Polygon.simplify ⟨pts⟩ := by
  intro op hop
  unfold trapStep at h
  cases har : trap_area t with
  | error e =>
    rw [har] at h
    simp [bind_error_eq] at h
  | ok ar =>
    rw [har] at h
    simp only [bind_ok_eq, pure_bind_eq] at h
    by_cases hgt : ar > m
    · rw [if_pos (by simp only [decide_eq_true_eq]; exact hgt)] at h
      cases hmap : extractAll t with
      | error e =>
        rw [hmap] at h
        simp [bind_error_eq] at h
      | ok pts =>
        rw [hmap] at h
        simp only [bind_ok_eq] at h
        cases h
        rcases List.mem_append.mp hop with hin | hsing
        · exact Or.inl hin
        · refine Or.inr ⟨ar, rfl, hgt, pts, extract_mapM_eq t pts hmap, ?_⟩
          simpa using hsing
    · rw [if_neg (by simp only [decide_eq_true_eq]; exact hgt)] at h
      cases h
      exact Or.inl hop

theorem trapFold_mem (m : ℚ) :
    ∀ (traps : List (List (Option V2))) (acc0 out : List (Option Polygon)),
      traps.foldlM (trapStep (some m)) acc0 = .ok out →
      ∀ op ∈ out, op ∈ acc0 ∨
        ∃ t ∈ traps, ∃ ar, trap_area t = .ok ar ∧ m < ar ∧
          ∃ pts, t = pts.map some ∧ op = Polygon.simplify ⟨pts⟩ := by
  intro traps
  induction traps with
  | nil =>
    intro acc0 out h op hop
    simp only [List.foldlM_nil] at h
    cases h
    exact Or.inl hop
  | cons t ts ih =>
    intro acc0 out h op hop
    rw [List.foldlM_cons] at h
    cases hstep : trapStep (some m) acc0 t with
    | error e =>
      rw [hstep] at h
      simp [bind_error_eq] at h
    | ok acc1 =>
      rw [hstep] at h
      rw [bind_ok_eq] at h
      rcases ih acc1 out h op hop with hin | ⟨t', ht', rest⟩
      · rcases trapStep_mem m acc0 t acc1 hstep op hin with h0 | hex
        · exact Or.inl h0
        · exact Or.inr ⟨t, List.mem_cons_self t ts, hex⟩
      · exact Or.inr ⟨t', List.mem_cons_of_mem t ht', rest⟩

/-- C8 (amended): with a minimum area given, every polygon `trapezoidal`
returns has more than two points and originates from a sweep quad whose
*two-triangle* measure `trap_area(t) = tri_area(a,b,c) + tri_area(b,c,d)`
strictly exceeds the minimum, the quad then being simplified; quads whose
two-triangle measure does not exceed the minimum, and quads that simplify
below three distinct points, are discarded.  (The two-triangle measure is
*not* in general the quad's absolute shoelace area.) -/
theorem trapezoidal_filter_semantics (polys : List Polygon) (m : ℚ)
    (res : List Polygon) (h : trapezoidal polys (some m) = .ok res) :
    ∀ p ∈ res, 2 < p.points.length ∧
      ∃ traps, trapezoidal_raw polys = .ok traps ∧
        ∃ t ∈ traps, ∃ ar, trap_area t = .ok ar ∧ m < ar ∧
          ∃ pts, t = pts.map some ∧ Polygon.simplify ⟨pts⟩ = some p := by
  intro p hp
  unfold trapezoidal at h
  cases htr : trapezoidal_raw polys with
  | error e =>
    rw [htr] at h
    simp [bind_error_eq] at h
  | ok traps =>
    rw [htr] at h
    rw [bind_ok_eq] at h
    cases hfold : traps.foldlM (trapStep (some m)) [] with
    | error e =>
      rw [hfold] at h
      simp [bind_error_eq] at h
    | ok simplified =>
      rw [hfold] at h
      rw [bind_ok_eq] at h
      cases h
      rcases List.mem_filter.mp hp with ⟨hmem, hlen⟩
      rcases List.mem_filterMap.mp hmem with ⟨op, hop, hid⟩
      have hops : op = some p := hid
      subst hops
      rcases trapFold_mem m traps [] simplified hfold (some p) hop with h0 | hex
      · cases h0
      · rcases hex with ⟨t, ht, ar, har, hm, pts, hpts, hsimp⟩
        exact ⟨by simpa using hlen, traps, rfl, t, ht, ar, har, hm, pts, hpts,
          hsimp.symm⟩

/-- C8 witness: on `p8` with minimum area `1/2`, the single emitted quad has
two-triangle measure `1 > 1/2` and survives as the 4-point polygon. -/
theorem trapezoidal_filter_semantics_witness :
    trapezoidal [p8] (some (1/2)) = .ok [p8] ∧
    (2 < p8.points.length ∧
      ∃ traps, trapezoidal_raw [p8] = .ok traps ∧
        ∃ t ∈ traps, ∃ ar, trap_area t = .ok ar ∧ 1/2 < ar ∧
          ∃ pts, t = pts.map some ∧ Polygon.simplify ⟨pts⟩ = some p8) := by
  have h : trapezoidal [p8] (some (1/2)) = .ok [p8] := by decide
  exact ⟨h, trapezoidal_filter_semantics [p8] (1/2) [p8] h p8 (by simp)⟩

/-- C8 counterexample: the sweep on `p8` emits exactly the quad
`(0,0), (0,1), (1,1), (3,0)`; the filter's measure `trap_area` gives `1`,
while the quad's absolute shoelace area is `2` — the claimed equality fails
on a quad actually produced by the sweep. -/
theorem trap_area_differs_from_shoelace :
    trapezoidal_raw [p8] = .ok [t8] ∧
    trap_area t8 = .ok 1 ∧
    shoelaceArea [⟨0,0⟩, ⟨0,1⟩, ⟨1,1⟩, ⟨3,0⟩] = 2 ∧
    (1 : ℚ) ≠ 2 :=
  ⟨by decide, by decide, by decide, by decide⟩

end Petrify
